import Mathlib

/-
Verification development for `examples/math_st.c`.

The C file defines two parameter-record types and two functions:

  typedef struct MYLOG_interface { int x; } MYLOG_interface;
  typedef struct MYPRINTF_interface { char text[81]; int value; } MYPRINTF_interface;

  int MYLOG(MYLOG_interface* param) {
      printf("Calling log with %d\n", param->x);
      int res = (int) log10(param->x);
      printf("result :  %d\n", res);
      return res;
  }

  int MYPRINTF(MYPRINTF_interface* param) {
      return printf(param->text, param->value);
  }

Modelling choices, stated once here and referenced from the definitions:

* `printf` output is modelled as the list of characters written by one call.
  Conversion processing is modelled for the directives that can occur with a
  single `int` argument in this file: ordinary characters, `%d` (decimal
  substitution, consuming one supplied argument) and `%%` (literal percent).
  A conversion that needs an argument when none is left is an out-of-bounds
  read of the variadic argument area: undefined behavior, modelled by the
  explicit outcome `FmtOut.argOverrun`.  Any other conversion specification
  is outside the modelled subset (`FmtOut.unmodelled`).
* A C `int` is modelled as `Int`; neither function performs integer
  arithmetic that can overflow a 32-bit `int` (`MYLOG` produces values in
  [0, 9] for positive 32-bit inputs, `MYPRINTF` only formats), so the
  width plays no role in the claims.
* `(int) log10((double) x)`: every 32-bit `int` converts to `double`
  exactly, and for `x >= 1` the truncation toward zero of `log10 x` is the
  floor of the exact base-10 logarithm; the nearest double to `log10 x` has
  the same floor for all `x` in `int` range, since the exact logarithm of an
  integer below 2^31 is never within the rounding error of an integer unless
  it is one.  This exact-real semantics is embedded as the executable
  `ilog10` on `Nat`.  For `x <= 0` the C computation is undefined or
  platform-defined (`log10` yields -inf or NaN, and the conversion to `int`
  is then undefined); the resulting `int` is modelled by an arbitrary
  platform oracle `platform : Int → Int` that every theorem quantifies over.
* The terminating stream: writes can fail, in which case `printf` returns a
  negative value; the flag `streamOk` selects the behavior of the stream for
  a call.  `MYLOG` discards the return values of its `printf` calls, and its
  claims describe the text written on a working stream, so it is modelled
  with a working stream.
-/

namespace MathSt

/-- Decimal digits of a natural number, most significant first, prepended to
`acc`; fuel-driven so that the recursion is structural and kernel-reducible.
Mirrors the digit loop of a C `%d` conversion (repeated `n % 10`, `n / 10`). -/
def natDigitsAux : Nat → Nat → List Char → List Char
  | 0, _, acc => acc
  | fuel + 1, n, acc =>
    let d := Char.ofNat (48 + n % 10)
    if n < 10 then d :: acc else natDigitsAux fuel (n / 10) (d :: acc)

/-- Decimal rendering of a natural number, as written by `%d` (fuel `n + 1`
always suffices, since `n / 10` shrinks strictly below each fuel step). -/
def natDecimal (n : Nat) : List Char :=
  natDigitsAux (n + 1) n []

/-- Decimal rendering of an `int` by `%d`: optional minus sign, then digits. -/
def intDecimal (v : Int) : List Char :=
  if v < 0 then '-' :: natDecimal (-v).toNat else natDecimal v.toNat

/-- Outcome of processing a format template against a list of supplied
variadic arguments. -/
inductive FmtOut where
  /-- Processing succeeded and produced this text. -/
  | ok (out : List Char)
  /-- A conversion consumed a variadic argument that was never supplied:
  the C call reads out of bounds, undefined behavior. -/
  | argOverrun
  /-- A conversion specification outside the modelled subset. -/
  | unmodelled
  deriving DecidableEq, Repr

/-- Prepend already-produced text to the outcome of the rest of the template. -/
def FmtOut.push (pre : List Char) : FmtOut → FmtOut
  | .ok out => .ok (pre ++ out)
  | e => e

/-- Process a `printf` format template against the supplied arguments:
ordinary characters are copied, `%d` consumes one argument and writes its
decimal rendering, `%%` writes a literal percent.  A `%d` with no argument
left is the out-of-bounds read; a lone trailing `%` or any other conversion
is outside the modelled subset. -/
def formatWith : List Char → List Int → FmtOut
  | [], _ => .ok []
  | c :: rest, args =>
    if c = '%' then
      match rest, args with
      | 'd' :: rest', v :: args' => FmtOut.push (intDecimal v) (formatWith rest' args')
      | 'd' :: _, [] => .argOverrun
      | '%' :: rest', _ => FmtOut.push ['%'] (formatWith rest' args)
      | _, _ => .unmodelled
    else
      FmtOut.push [c] (formatWith rest args)

/-- Observable result of one `printf(fmt, value)` call. -/
inductive PrintfResult where
  /-- The text written to the stream and the returned character count. -/
  | ok (out : List Char) (ret : Int)
  /-- The stream write failed; `printf` returns a negative value. -/
  | ioError (ret : Int)
  /-- Undefined behavior: a conversion read a missing variadic argument. -/
  | argOverrun
  /-- A conversion specification outside the modelled subset. -/
  | unmodelled
  /-- Undefined behavior: the `text` array holds no terminating null, so
  `printf` reads past the end of the 81-byte buffer. -/
  | bufferOverrun
  deriving DecidableEq, Repr

/-- One `printf` call with a single `int` variadic argument, on a stream that
succeeds iff `streamOk`. -/
def printf1 (streamOk : Bool) (fmt : List Char) (arg : Int) : PrintfResult :=
  match formatWith fmt [arg] with
  | .ok out => if streamOk then .ok out (out.length : Int) else .ioError (-1)
  | .argOverrun => .argOverrun
  | .unmodelled => .unmodelled

/-- The chunks of text a `printf` call appends to standard output (one chunk
per successful call, nothing on a failed or undefined call). -/
def writtenChunks : PrintfResult → List (List Char)
  | .ok out _ => [out]
  | _ => []

/-- The parameter record of `MYLOG`: a single `int x`. -/
structure MYLOG_interface where
  x : Int

/-- Fuel-driven floor of the base-10 logarithm (number of times 10 divides
into `n` before the quotient drops below 10); structural, kernel-reducible. -/
def ilog10Aux : Nat → Nat → Nat
  | 0, _ => 0
  | fuel + 1, n => if n < 10 then 0 else ilog10Aux fuel (n / 10) + 1

/-- Truncated base-10 logarithm of a positive natural number: the exact-real
semantics of the C expression `(int) log10(x)` for `x >= 1` (see header). -/
def ilog10 (n : Nat) : Nat :=
  ilog10Aux n n

/-- The function `MYLOG`, returning the `int` result together with the chunks written to
standard output.  The two `printf` calls are the source's, with their fixed
templates; the numeric result is `ilog10` for positive input and the platform
oracle's value otherwise (see header). -/
def MYLOG (platform : Int → Int) (p : MYLOG_interface) : Int × List (List Char) :=
  let out1 := writtenChunks (printf1 true ("Calling log with %d\n".toList) p.x)
  let res : Int := if 1 ≤ p.x then (ilog10 p.x.toNat : Int) else platform p.x
  let out2 := writtenChunks (printf1 true ("result :  %d\n".toList) res)
  (res, out1 ++ out2)

/-- The parameter record of `MYPRINTF`: the fixed 81-byte array `char text[81]`
(hence the length invariant) and the `int value`. -/
structure MYPRINTF_interface where
  text : List Char
  value : Int
  text_size : text.length = 81

/-- The C string held by a character array: the characters before the first
null byte. -/
def cstr (text : List Char) : List Char :=
  text.takeWhile (fun c => c != '\x00')

/-- The function `MYPRINTF`: forwards `param->text` and `param->value` to `printf`
unchecked.  If the array holds no null byte, `printf` reads past the buffer
(undefined behavior); otherwise the template is the C string in the array. -/
def MYPRINTF (streamOk : Bool) (param : MYPRINTF_interface) : PrintfResult :=
  if param.text.contains '\x00' then
    printf1 streamOk (cstr param.text) param.value
  else
    .bufferOverrun

/-- Build a `MYPRINTF_interface` from template text of at most 81 characters,
null-padding the 81-byte array as a C string literal initializer would. -/
def mkPrintReq (s : String) (v : Int) (h : s.toList.length ≤ 81) : MYPRINTF_interface :=
  ⟨s.toList ++ List.replicate (81 - s.toList.length) '\x00', v, by
    simp only [List.length_append, List.length_replicate]
    omega⟩

/-- Run `MYLOG` against an output stream holding the chunks already written:
result, the parameter record after the call (the C body contains no store
through `param`, so the record is returned unchanged), and the new stream. -/
def MYLOG_run (platform : Int → Int) (w : List (List Char)) (p : MYLOG_interface) :
    Int × MYLOG_interface × List (List Char) :=
  ((MYLOG platform p).1, p, w ++ (MYLOG platform p).2)

/-- Run `MYPRINTF` against an output stream holding the chunks already
written: result, the parameter record after the call (the C body contains no
store through `param`), and the new stream. -/
def MYPRINTF_run (streamOk : Bool) (w : List (List Char)) (q : MYPRINTF_interface) :
    PrintfResult × MYPRINTF_interface × List (List Char) :=
  (MYPRINTF streamOk q, q, w ++ writtenChunks (MYPRINTF streamOk q))

/-- The request of the spec's example `printFormatted("Value: %d", 42)`. -/
def reqValue42 : MYPRINTF_interface := mkPrintReq "Value: %d" 42 (by decide)

/-- The request of the spec's regression example `printFormatted("%d %d", 1)`. -/
def reqTwoDirectives : MYPRINTF_interface := mkPrintReq "%d %d" 1 (by decide)

/-- A request whose template contains one newline and one directive. -/
def reqNewline : MYPRINTF_interface := mkPrintReq "hi %d\n" 7 (by decide)

/-- A directive-free template paired with the value 1. -/
def reqPlainA : MYPRINTF_interface := mkPrintReq "plain text" 1 (by decide)

/-- The same directive-free template paired with the value 2. -/
def reqPlainB : MYPRINTF_interface := mkPrintReq "plain text" 2 (by decide)

/-! Helper lemmas (shared, not tied to any single claim). -/

theorem FmtOut.push_nil (r : FmtOut) : FmtOut.push [] r = r := by
  cases r <;> rfl

theorem FmtOut.push_push (a b : List Char) (r : FmtOut) :
    FmtOut.push a (FmtOut.push b r) = FmtOut.push (a ++ b) r := by
  cases r with
  | ok out => simp [FmtOut.push, List.append_assoc]
  | argOverrun => rfl
  | unmodelled => rfl

theorem formatWith_nil (args : List Int) : formatWith [] args = .ok [] := rfl

theorem formatWith_percent_d (rest : List Char) (v : Int) (args : List Int) :
    formatWith ('%' :: 'd' :: rest) (v :: args) =
      FmtOut.push (intDecimal v) (formatWith rest args) := rfl

theorem formatWith_percent_d_noarg (rest : List Char) :
    formatWith ('%' :: 'd' :: rest) [] = .argOverrun := rfl

theorem formatWith_percent_percent (rest : List Char) (args : List Int) :
    formatWith ('%' :: '%' :: rest) args = FmtOut.push ['%'] (formatWith rest args) := rfl

theorem formatWith_percent_other (rest : List Char) (args : List Int)
    (h1 : ∀ rest', rest = '%' :: rest' → False)
    (h2 : ∀ rest' v args', rest = 'd' :: rest' → args = v :: args' → False)
    (h3 : ∀ tail, rest = 'd' :: tail → args = [] → False) :
    formatWith ('%' :: rest) args = .unmodelled := by
  rw [formatWith]
  · rfl
  · exact h1
  · exact h2
  · exact h3

theorem formatWith_cons_of_ne_percent {c : Char} (hc : c ≠ '%') (rest : List Char)
    (args : List Int) :
    formatWith (c :: rest) args = FmtOut.push [c] (formatWith rest args) := by
  rcases rest with _ | ⟨c', rest'⟩
  · rw [formatWith.eq_5]
    · exact if_neg hc
    · intro r h; exact List.noConfusion h
    · intro r v a h hh; exact List.noConfusion h
    · intro t h hh; exact List.noConfusion h
  · by_cases hd : c' = 'd'
    · subst hd
      rcases args with _ | ⟨v, args'⟩
      · rw [formatWith.eq_3]; exact if_neg hc
      · rw [formatWith.eq_2]; exact if_neg hc
    · by_cases hp : c' = '%'
      · subst hp; rw [formatWith.eq_4]; exact if_neg hc
      · rw [formatWith.eq_5]
        · exact if_neg hc
        · intro r h; injection h with h1 _; exact hp h1
        · intro r v a h hh; injection h with h1 _; exact hd h1
        · intro t h hh; injection h with h1 _; exact hd h1

theorem formatWith_append_of_no_percent (pre : List Char) (hpre : ∀ c ∈ pre, c ≠ '%')
    (rest : List Char) (args : List Int) :
    formatWith (pre ++ rest) args = FmtOut.push pre (formatWith rest args) := by
  induction pre with
  | nil => simp [FmtOut.push_nil]
  | cons c pre ih =>
    have hc : c ≠ '%' := hpre c (by simp)
    have hpre' : ∀ d ∈ pre, d ≠ '%' := fun d hd => hpre d (by simp [hd])
    simp only [List.cons_append, formatWith_cons_of_ne_percent hc, ih hpre',
      FmtOut.push_push, List.singleton_append, List.nil_append]

theorem formatWith_of_no_percent (fmt : List Char) (h : ∀ c ∈ fmt, c ≠ '%')
    (args : List Int) : formatWith fmt args = .ok fmt := by
  have h0 := formatWith_append_of_no_percent fmt h [] args
  simpa [formatWith, FmtOut.push] using h0

theorem digitChar_ne_newline (k : Nat) (hk : k < 10) : Char.ofNat (48 + k) ≠ '\n' := by
  interval_cases k <;> decide

theorem newline_not_mem_natDigitsAux (fuel : Nat) :
    ∀ (n : Nat) (acc : List Char), '\n' ∉ acc → '\n' ∉ natDigitsAux fuel n acc := by
  induction fuel with
  | zero => intro n acc hacc; simpa [natDigitsAux] using hacc
  | succ fuel ih =>
    intro n acc hacc
    have hd : Char.ofNat (48 + n % 10) ≠ '\n' :=
      digitChar_ne_newline _ (Nat.mod_lt _ (by omega))
    have hcons : '\n' ∉ Char.ofNat (48 + n % 10) :: acc := by
      intro hmem
      rcases List.mem_cons.mp hmem with h | h
      · exact hd h.symm
      · exact hacc h
    simp only [natDigitsAux]
    split
    · exact hcons
    · exact ih _ _ hcons

theorem newline_not_mem_natDecimal (n : Nat) : '\n' ∉ natDecimal n :=
  newline_not_mem_natDigitsAux _ _ _ (by simp)

theorem newline_not_mem_intDecimal (v : Int) : '\n' ∉ intDecimal v := by
  unfold intDecimal
  split
  · intro hmem
    rcases List.mem_cons.mp hmem with h | h
    · exact absurd h (by decide)
    · exact newline_not_mem_natDecimal _ h
  · exact newline_not_mem_natDecimal _

theorem count_newline_formatWith (fmt : List Char) (args : List Int) :
    ∀ out : List Char, formatWith fmt args = .ok out →
      out.count '\n' = fmt.count '\n' := by
  induction fmt, args using formatWith.induct with
  | case1 args =>
    intro out h
    simp only [formatWith_nil, FmtOut.ok.injEq] at h
    simp [← h]
  | case2 rest' v args' ih =>
    intro out h
    rw [formatWith_percent_d] at h
    cases hr : formatWith rest' args' with
    | ok out' =>
      rw [hr] at h
      simp only [FmtOut.push, FmtOut.ok.injEq] at h
      have hv : (intDecimal v).count '\n' = 0 :=
        List.count_eq_zero.mpr (newline_not_mem_intDecimal v)
      rw [← h]
      simp [List.count_append, hv, ih out' hr, List.count_cons]
    | argOverrun => rw [hr] at h; simp [FmtOut.push] at h
    | unmodelled => rw [hr] at h; simp [FmtOut.push] at h
  | case3 tail =>
    intro out h
    rw [formatWith_percent_d_noarg] at h
    exact absurd h (by simp)
  | case4 args rest' ih =>
    intro out h
    rw [formatWith_percent_percent] at h
    cases hr : formatWith rest' args with
    | ok out' =>
      rw [hr] at h
      simp only [FmtOut.push, FmtOut.ok.injEq] at h
      rw [← h]
      simp [List.count_cons, ih out' hr]
    | argOverrun => rw [hr] at h; simp [FmtOut.push] at h
    | unmodelled => rw [hr] at h; simp [FmtOut.push] at h
  | case5 rest args h1 h2 h3 =>
    intro out h
    rw [formatWith_percent_other rest args h1 h2 h3] at h
    exact absurd h (by simp)
  | case6 c rest args hc ih =>
    intro out h
    rw [formatWith_cons_of_ne_percent hc] at h
    cases hr : formatWith rest args with
    | ok out' =>
      rw [hr] at h
      simp only [FmtOut.push, FmtOut.ok.injEq] at h
      rw [← h]
      simp [List.count_cons, ih out' hr]
    | argOverrun => rw [hr] at h; simp [FmtOut.push] at h
    | unmodelled => rw [hr] at h; simp [FmtOut.push] at h

theorem ilog10Aux_spec (fuel : Nat) :
    ∀ n : Nat, 1 ≤ n → n ≤ fuel →
      10 ^ ilog10Aux fuel n ≤ n ∧ n < 10 ^ (ilog10Aux fuel n + 1) := by
  induction fuel with
  | zero => intro n h1 h2; omega
  | succ fuel ih =>
    intro n h1 h2
    simp only [ilog10Aux]
    split
    · next h => simpa using And.intro h1 h
    · next h =>
      push_neg at h
      have hm1 : 1 ≤ n / 10 := by omega
      have hm2 : n / 10 ≤ fuel := by omega
      obtain ⟨ha, hb⟩ := ih (n / 10) hm1 hm2
      constructor
      · calc 10 ^ (ilog10Aux fuel (n / 10) + 1)
              = 10 ^ ilog10Aux fuel (n / 10) * 10 := by rw [pow_succ]
          _ ≤ n / 10 * 10 := Nat.mul_le_mul_right 10 ha
          _ ≤ n := by omega
      · calc n < (n / 10 + 1) * 10 := by omega
          _ ≤ 10 ^ (ilog10Aux fuel (n / 10) + 1) * 10 := Nat.mul_le_mul_right 10 (by omega)
          _ = 10 ^ (ilog10Aux fuel (n / 10) + 1 + 1) := by ring

theorem ilog10_spec (n : Nat) (h : 1 ≤ n) :
    10 ^ ilog10 n ≤ n ∧ n < 10 ^ (ilog10 n + 1) :=
  ilog10Aux_spec n n h le_rfl

theorem contains_null_iff (text : List Char) :
    text.contains '\x00' = true ↔ '\x00' ∈ text :=
  List.elem_iff

theorem cstr_length_lt {text : List Char} (h : '\x00' ∈ text) :
    (cstr text).length < text.length := by
  induction text with
  | nil => cases h
  | cons c t ih =>
    by_cases hc : c = '\x00'
    · subst hc
      simp [cstr, List.takeWhile_cons]
    · have ht : '\x00' ∈ t := by
        rcases List.mem_cons.mp h with h' | h'
        · exact absurd h'.symm hc
        · exact h'
      have ihh := ih ht
      have hcb : (c != '\x00') = true := by simp [hc]
      simp only [cstr] at ihh ⊢
      rw [List.takeWhile_cons, if_pos hcb]
      simp only [List.length_cons]
      omega

theorem cstr_eq_self {text : List Char} (h : '\x00' ∉ text) : cstr text = text := by
  induction text with
  | nil => rfl
  | cons c t ih =>
    have hc : c ≠ '\x00' := fun he => h (by simp [he])
    have ht : '\x00' ∉ t := fun hm => h (by simp [hm])
    have iht := ih ht
    have hcb : (c != '\x00') = true := by simp [hc]
    simp only [cstr] at iht ⊢
    rw [List.takeWhile_cons, if_pos hcb, iht]

theorem contains_null_iff_cstr_short {text : List Char} (hlen : text.length = 81) :
    text.contains '\x00' = true ↔ (cstr text).length ≤ 80 := by
  constructor
  · intro h
    have := cstr_length_lt ((contains_null_iff _).mp h)
    omega
  · intro h
    by_contra hc
    have hm : '\x00' ∉ text := fun hm => hc ((contains_null_iff _).mpr hm)
    rw [cstr_eq_self hm] at h
    omega

theorem formatWith_callingLog (v : Int) :
    formatWith ("Calling log with %d\n".toList) [v] =
      .ok ("Calling log with ".toList ++ (intDecimal v ++ ['\n'])) := by
  have hdec : "Calling log with %d\n".toList =
      "Calling log with ".toList ++ ('%' :: 'd' :: '\n' :: []) := by decide
  have hnp : ∀ c ∈ "Calling log with ".toList, c ≠ '%' := by decide
  rw [hdec, formatWith_append_of_no_percent _ hnp, formatWith_percent_d]
  rfl

theorem formatWith_resultLine (v : Int) :
    formatWith ("result :  %d\n".toList) [v] =
      .ok ("result :  ".toList ++ (intDecimal v ++ ['\n'])) := by
  have hdec : "result :  %d\n".toList =
      "result :  ".toList ++ ('%' :: 'd' :: '\n' :: []) := by decide
  have hnp : ∀ c ∈ "result :  ".toList, c ≠ '%' := by decide
  rw [hdec, formatWith_append_of_no_percent _ hnp, formatWith_percent_d]
  rfl

theorem MYLOG_fst (platform : Int → Int) (p : MYLOG_interface) :
    (MYLOG platform p).1 =
      if 1 ≤ p.x then ((ilog10 p.x.toNat : Nat) : Int) else platform p.x := rfl

theorem MYLOG_fst_of_pos (platform : Int → Int) {x : Int} (hx : 1 ≤ x) :
    (MYLOG platform ⟨x⟩).1 = ((ilog10 x.toNat : Nat) : Int) := by
  rw [MYLOG_fst]
  exact if_pos hx

theorem MYLOG_snd (platform : Int → Int) (p : MYLOG_interface) :
    (MYLOG platform p).2 =
      ["Calling log with ".toList ++ (intDecimal p.x ++ ['\n']),
       "result :  ".toList ++ (intDecimal (MYLOG platform p).1 ++ ['\n'])] := by
  conv_lhs => rw [MYLOG]
  rw [MYLOG_fst]
  simp only [printf1, formatWith_callingLog, formatWith_resultLine, writtenChunks]
  simp

/-! Claim theorems. -/

/-- Claim C1: for every positive integer `x`, `MYLOG` returns the mathematically
truncated (toward zero) base-10 logarithm of `x`: the result `r` is
nonnegative and satisfies `10 ^ r ≤ x < 10 ^ (r + 1)`; in particular the
results at 100, 99, 1 and 1000 are 2, 1, 0 and 3. -/
theorem MYLOG_truncated_base10_log (platform : Int → Int) (x : Int) (hx : 1 ≤ x) :
    0 ≤ (MYLOG platform ⟨x⟩).1 ∧
    (10 : Int) ^ ((MYLOG platform ⟨x⟩).1).toNat ≤ x ∧
    x < (10 : Int) ^ (((MYLOG platform ⟨x⟩).1).toNat + 1) ∧
    (MYLOG platform ⟨100⟩).1 = 2 ∧ (MYLOG platform ⟨99⟩).1 = 1 ∧
    (MYLOG platform ⟨1⟩).1 = 0 ∧ (MYLOG platform ⟨1000⟩).1 = 3 := by
  have hfst : (MYLOG platform ⟨x⟩).1 = ((ilog10 x.toNat : Nat) : Int) :=
    MYLOG_fst_of_pos platform hx
  have hx1 : 1 ≤ x.toNat := by omega
  obtain ⟨ha, hb⟩ := ilog10_spec x.toNat hx1
  have hxx : ((x.toNat : Nat) : Int) = x := Int.toNat_of_nonneg (by omega)
  refine ⟨?_, ?_, ?_, ?_, ?_, ?_, ?_⟩
  · rw [hfst]; exact Int.natCast_nonneg _
  · rw [hfst, Int.toNat_natCast]
    calc (10 : Int) ^ ilog10 x.toNat = ((10 ^ ilog10 x.toNat : Nat) : Int) := by push_cast; rfl
      _ ≤ ((x.toNat : Nat) : Int) := by exact_mod_cast ha
      _ = x := hxx
  · rw [hfst, Int.toNat_natCast]
    calc x = ((x.toNat : Nat) : Int) := hxx.symm
      _ < ((10 ^ (ilog10 x.toNat + 1) : Nat) : Int) := by exact_mod_cast hb
      _ = (10 : Int) ^ (ilog10 x.toNat + 1) := by push_cast; rfl
  · rw [MYLOG_fst_of_pos platform (by norm_num : (1 : Int) ≤ 100)]; decide
  · rw [MYLOG_fst_of_pos platform (by norm_num : (1 : Int) ≤ 99)]; decide
  · rw [MYLOG_fst_of_pos platform (by norm_num : (1 : Int) ≤ 1)]; decide
  · rw [MYLOG_fst_of_pos platform (by norm_num : (1 : Int) ≤ 1000)]; decide

/-- Claim C1 witness: the theorem instantiated at `x = 5` with a concrete
platform oracle. -/
theorem MYLOG_truncated_base10_log_witness :
    (1 : Int) ≤ 5 ∧
    (0 ≤ (MYLOG (fun _ => 0) ⟨5⟩).1 ∧
     (10 : Int) ^ ((MYLOG (fun _ => 0) ⟨5⟩).1).toNat ≤ 5 ∧
     (5 : Int) < (10 : Int) ^ (((MYLOG (fun _ => 0) ⟨5⟩).1).toNat + 1) ∧
     (MYLOG (fun _ => 0) ⟨100⟩).1 = 2 ∧ (MYLOG (fun _ => 0) ⟨99⟩).1 = 1 ∧
     (MYLOG (fun _ => 0) ⟨1⟩).1 = 0 ∧ (MYLOG (fun _ => 0) ⟨1000⟩).1 = 3) :=
  ⟨by norm_num, MYLOG_truncated_base10_log (fun _ => 0) 5 (by norm_num)⟩

/-- Claim C4: for every input, `MYLOG` writes exactly two trace chunks, each one
line ended by a newline: `Calling log with <x>` before the computation and
`result :  <res>` (double space) after it, where `<res>` is exactly the
integer the call returns. -/
theorem MYLOG_trace_two_lines (platform : Int → Int) (p : MYLOG_interface) :
    (MYLOG platform p).2 =
      ["Calling log with ".toList ++ (intDecimal p.x ++ ['\n']),
       "result :  ".toList ++ (intDecimal (MYLOG platform p).1 ++ ['\n'])] ∧
    (MYLOG platform p).2.length = 2 := by
  refine ⟨MYLOG_snd platform p, ?_⟩
  rw [MYLOG_snd]
  rfl

/-- Claim C6: `MYLOG` validates nothing and has no error path: for `x ≤ 0` it
still runs to completion, writes its two trace lines, and returns whatever
integer the platform's undefined `(int) log10` conversion produces — the
result is exactly the unconstrained platform oracle's value. -/
theorem MYLOG_nonpositive_platform_defined (platform : Int → Int) (x : Int) (hx : x ≤ 0) :
    (MYLOG platform ⟨x⟩).1 = platform x ∧ (MYLOG platform ⟨x⟩).2.length = 2 := by
  constructor
  · rw [MYLOG_fst]
    exact if_neg (show ¬ (1 : Int) ≤ x by omega)
  · rw [MYLOG_snd]
    rfl

/-- Claim C6 witness: at `x = 0` with a platform oracle answering `INT_MIN`. -/
theorem MYLOG_nonpositive_platform_defined_witness :
    (0 : Int) ≤ 0 ∧
    ((MYLOG (fun _ => -2147483648) ⟨0⟩).1 = -2147483648 ∧
     (MYLOG (fun _ => -2147483648) ⟨0⟩).2.length = 2) :=
  ⟨le_refl 0, MYLOG_nonpositive_platform_defined (fun _ => -2147483648) 0 (le_refl 0)⟩

/-- Claim C7: both operations are deterministic and stateless: a second call with
the identical record returns the same value and appends the same output
chunks to the stream as the first call did. -/
theorem ops_deterministic_stateless (platform : Int → Int) (streamOk : Bool)
    (w : List (List Char)) (p : MYLOG_interface) (q : MYPRINTF_interface) :
    ((MYLOG_run platform ((MYLOG_run platform w p).2.2) p).1 = (MYLOG_run platform w p).1 ∧
     ((MYLOG_run platform ((MYLOG_run platform w p).2.2) p).2.2).drop
         ((MYLOG_run platform w p).2.2).length =
       ((MYLOG_run platform w p).2.2).drop w.length) ∧
    ((MYPRINTF_run streamOk ((MYPRINTF_run streamOk w q).2.2) q).1 =
       (MYPRINTF_run streamOk w q).1 ∧
     ((MYPRINTF_run streamOk ((MYPRINTF_run streamOk w q).2.2) q).2.2).drop
         ((MYPRINTF_run streamOk w q).2.2).length =
       ((MYPRINTF_run streamOk w q).2.2).drop w.length) := by
  refine ⟨⟨rfl, ?_⟩, ⟨rfl, ?_⟩⟩ <;>
    simp [MYLOG_run, MYPRINTF_run, List.drop_left]

/-- Claim C8: neither operation mutates its parameter record (the record after the
call is the record passed in), and no state is shared between them: running
one operation first changes nothing about what the other returns. -/
theorem ops_frame_no_shared_state (platform : Int → Int) (streamOk : Bool)
    (w : List (List Char)) (p : MYLOG_interface) (q : MYPRINTF_interface) :
    (MYLOG_run platform w p).2.1 = p ∧
    (MYPRINTF_run streamOk w q).2.1 = q ∧
    (MYPRINTF_run streamOk ((MYLOG_run platform w p).2.2) q).1 =
      (MYPRINTF_run streamOk w q).1 ∧
    (MYLOG_run platform ((MYPRINTF_run streamOk w q).2.2) p).1 =
      (MYLOG_run platform w p).1 :=
  ⟨rfl, rfl, rfl, rfl⟩

/-- Claim C2 counterexample: the claim is false on the code.  `MYPRINTF` with the
template `"%d %d"` and the single argument 1 does not fail with any
`InvalidFormatTemplate` error — no validation or such error kind exists in
the code — it forwards the template to `printf`, which reads the missing
second variadic argument out of bounds. -/
theorem MYPRINTF_two_directives_oob_read :
    MYPRINTF true reqTwoDirectives = .argOverrun := by decide

/-- Claim C2 amended: `MYPRINTF` performs no template validation; for the template
`"%d %d"` with the single argument 1 the call performs an out-of-bounds
variadic-argument read (undefined behavior), on any stream state, instead of
failing with a structured error. -/
theorem MYPRINTF_no_template_validation :
    ∀ streamOk : Bool, MYPRINTF streamOk reqTwoDirectives = .argOverrun := by
  intro streamOk
  cases streamOk <;> decide

/-- Claim C3: `printFormatted("Value: %d", 42)` writes exactly `Value: 42` to
standard output and returns the character count 9. -/
theorem MYPRINTF_value_42 :
    MYPRINTF true reqValue42 = .ok ("Value: 42".toList) 9 := by decide

/-- Claim C5: whenever the template is terminated and well formed for one integer
argument, `MYPRINTF` returns the count of characters written on a working
stream and a negative indicator on a failed one, and the text written holds
exactly the newlines of the template — none is added. -/
theorem MYPRINTF_returns_count (streamOk : Bool) (p : MYPRINTF_interface) (out : List Char)
    (hterm : p.text.contains '\x00' = true)
    (hok : formatWith (cstr p.text) [p.value] = .ok out) :
    (streamOk = true →
      MYPRINTF streamOk p = .ok out (out.length : Int) ∧ 0 ≤ (out.length : Int)) ∧
    (streamOk = false → MYPRINTF streamOk p = .ioError (-1) ∧ (-1 : Int) < 0) ∧
    out.count '\n' = (cstr p.text).count '\n' := by
  have hM : ∀ s : Bool, MYPRINTF s p = printf1 s (cstr p.text) p.value := by
    intro s
    rw [MYPRINTF, if_pos hterm]
  refine ⟨?_, ?_, ?_⟩
  · intro hs
    subst hs
    constructor
    · rw [hM true]
      simp only [printf1]
      rw [hok]
      rfl
    · exact Int.natCast_nonneg _
  · intro hs
    subst hs
    refine ⟨?_, by norm_num⟩
    rw [hM false]
    simp only [printf1]
    rw [hok]
    rfl
  · exact count_newline_formatWith _ _ out hok

/-- Claim C5 witness: the theorem at a concrete request whose template holds one
newline and one directive. -/
theorem MYPRINTF_returns_count_witness :
    (reqNewline.text.contains '\x00' = true ∧
     formatWith (cstr reqNewline.text) [reqNewline.value] = .ok ("hi 7\n".toList)) ∧
    ((true = true →
       MYPRINTF true reqNewline = .ok ("hi 7\n".toList) (("hi 7\n".toList).length : Int) ∧
       0 ≤ (("hi 7\n".toList).length : Int)) ∧
     (true = false → MYPRINTF true reqNewline = .ioError (-1) ∧ (-1 : Int) < 0) ∧
     ("hi 7\n".toList).count '\n' = (cstr reqNewline.text).count '\n') :=
  ⟨⟨by decide, by decide⟩,
    MYPRINTF_returns_count true reqNewline ("hi 7\n".toList) (by decide) (by decide)⟩

/-- Claim C9: the `MYPRINTF` parameter record is its two fields, the 81-byte text
array (capacity 81 including the terminating null) and the integer value;
any template the call accepts (anything short of a buffer overrun) holds at
most 80 content characters. -/
theorem MYPRINTF_record_capacity (streamOk : Bool) (p : MYPRINTF_interface)
    (h : MYPRINTF streamOk p ≠ .bufferOverrun) :
    p.text.length = 81 ∧ (cstr p.text).length ≤ 80 := by
  refine ⟨p.text_size, ?_⟩
  cases hc : p.text.contains '\x00' with
  | false =>
    exfalso
    apply h
    rw [MYPRINTF, if_neg (show ¬(p.text.contains '\x00' = true) by rw [hc]; decide)]
  | true =>
    have hlt := cstr_length_lt ((contains_null_iff _).mp hc)
    have h81 := p.text_size
    omega

/-- Claim C9 witness: the theorem at the `"Value: %d"` request. -/
theorem MYPRINTF_record_capacity_witness :
    MYPRINTF true reqValue42 ≠ .bufferOverrun ∧
    (reqValue42.text.length = 81 ∧ (cstr reqValue42.text).length ≤ 80) :=
  ⟨by decide, MYPRINTF_record_capacity true reqValue42 (by decide)⟩

/-- Claim C10: for a directive-free template the outcome of `MYPRINTF` does not
depend on the value field: two requests with the same percent-free template
produce identical results, and any successful call writes the template
verbatim and returns its length. -/
theorem MYPRINTF_value_independent (streamOk : Bool) (p q : MYPRINTF_interface)
    (htpl : cstr p.text = cstr q.text) (hnp : ∀ c ∈ cstr p.text, c ≠ '%') :
    MYPRINTF streamOk p = MYPRINTF streamOk q ∧
    (∀ out ret, MYPRINTF streamOk p = .ok out ret →
      out = cstr p.text ∧ ret = ((cstr p.text).length : Int)) := by
  have hiff : p.text.contains '\x00' = q.text.contains '\x00' := by
    have h1 := contains_null_iff_cstr_short p.text_size
    have h2 := contains_null_iff_cstr_short q.text_size
    rw [htpl] at h1
    cases hcp : p.text.contains '\x00' <;> cases hcq : q.text.contains '\x00' <;>
      simp_all <;> omega
  cases hcp : p.text.contains '\x00' with
  | false =>
    have hcq : q.text.contains '\x00' = false := by rw [← hiff]; exact hcp
    have f1 : MYPRINTF streamOk p = .bufferOverrun := by
      rw [MYPRINTF, if_neg (show ¬(p.text.contains '\x00' = true) by rw [hcp]; decide)]
    have f2 : MYPRINTF streamOk q = .bufferOverrun := by
      rw [MYPRINTF, if_neg (show ¬(q.text.contains '\x00' = true) by rw [hcq]; decide)]
    refine ⟨by rw [f1, f2], ?_⟩
    intro out ret hok
    rw [f1] at hok
    exact absurd hok (by simp)
  | true =>
    have hcq : q.text.contains '\x00' = true := by rw [← hiff]; exact hcp
    have e1 : MYPRINTF streamOk p = printf1 streamOk (cstr p.text) p.value := by
      rw [MYPRINTF, if_pos hcp]
    have e2 : MYPRINTF streamOk q = printf1 streamOk (cstr q.text) q.value := by
      rw [MYPRINTF, if_pos hcq]
    have hfmt : ∀ v : Int, formatWith (cstr p.text) [v] = .ok (cstr p.text) := fun v =>
      formatWith_of_no_percent _ hnp _
    constructor
    · rw [e1, e2, ← htpl]
      simp only [printf1]
      rw [hfmt p.value, hfmt q.value]
    · intro out ret hok
      rw [e1] at hok
      simp only [printf1] at hok
      rw [hfmt p.value] at hok
      cases streamOk with
      | true =>
        simp at hok
        exact ⟨hok.1.symm, hok.2.symm⟩
      | false =>
        simp at hok

/-- Claim C10 witness: the theorem at two requests sharing the directive-free
template `"plain text"` with values 1 and 2. -/
theorem MYPRINTF_value_independent_witness :
    (cstr reqPlainA.text = cstr reqPlainB.text ∧
     (∀ c ∈ cstr reqPlainA.text, c ≠ '%')) ∧
    (MYPRINTF true reqPlainA = MYPRINTF true reqPlainB ∧
     (∀ out ret, MYPRINTF true reqPlainA = .ok out ret →
       out = cstr reqPlainA.text ∧ ret = ((cstr reqPlainA.text).length : Int))) :=
  ⟨⟨by decide, by decide⟩,
    MYPRINTF_value_independent true reqPlainA reqPlainB (by decide) (by decide)⟩

end MathSt
